import Mathlib

/-!
# Thread.c (POSIX build) : deadline utility and event primitive

Shallow embedding of the non-Windows branch of `src/src/Thread.c`.

Integer model.  `int ms` / `int timeout_ms` / `int rc` / `int val` are embedded
as `Int`.  The fields `time_t tv_sec` and `long tv_nsec` are 64-bit signed
integers (LP64): every addition and subtraction `Thread_time_from_now` makes on
them is followed by `wrap64`, the two's-complement wrap-around of the 64-bit
targets.  The theorems that speak of the instant a deadline denotes carry the
range of the clock reading as hypotheses.  C integer division and remainder
truncate toward zero: `Int.tdiv` and `Int.tmod`.

Environment model.  The clock reading (`clock_gettime`) is the parameter
`now`.  The native calls (`pthread_*`, `malloc`, `free`) are recorded in a call
log, and their result codes are parameters of the embedded functions.
-/

set_option linter.unusedVariables false

namespace PahoThread

/-! ## Constants -/

/-- Thread.c line 53: the macro NSEC_PER_SEC. -/
def NSEC_PER_SEC : Int := 1000000000

/-- The errno.h value of ETIMEDOUT on Linux. -/
def ETIMEDOUT : Int := 110

/-- The errno.h value of EINVAL on Linux. -/
def EINVAL : Int := 22

/-- The errno.h value of EBUSY on Linux. -/
def EBUSY : Int := 16

/-- The errno.h value of ENOMEM on Linux. -/
def ENOMEM : Int := 12

/-! ## Deadline utility -/

/-- The C struct timespec: seconds and nanoseconds. -/
structure timespec where
  tv_sec : Int
  tv_nsec : Int
deriving DecidableEq

/-- The instant a timespec denotes, in nanoseconds. -/
def timespec.to_ns (t : timespec) : Int :=
  t.tv_sec * 1000000000 + t.tv_nsec

/-- The validity condition POSIX puts on a timespec: 0 <= tv_nsec < 10^9. -/
def timespec.valid (t : timespec) : Prop :=
  0 ≤ t.tv_nsec ∧ t.tv_nsec < 1000000000

instance (t : timespec) : Decidable t.valid := by
  unfold timespec.valid
  exact inferInstance

/-- The value a 64-bit signed variable (time_t, long) holds after the
mathematical result `x` is stored in it: `x` reduced into
[-2^63, 2^63) modulo 2^64. -/
def wrap64 (x : Int) : Int :=
  (x + 9223372036854775808) % 18446744073709551616 - 9223372036854775808

/-- The range of a 64-bit signed variable. -/
def in_int64 (x : Int) : Prop :=
  -9223372036854775808 ≤ x ∧ x < 9223372036854775808

instance (x : Int) : Decidable (in_int64 x) := by
  unfold in_int64
  exact inferInstance

/-- Thread.c lines 156-160: the loop
`while (from_now.tv_nsec >= NSEC_PER_SEC) { from_now.tv_sec++; from_now.tv_nsec -= NSEC_PER_SEC; }`.
Returns the final value of `from_now` together with the number of times the
body ran. -/
def normalise_loop (from_now : timespec) : timespec × Nat :=
  if from_now.tv_nsec ≥ NSEC_PER_SEC then
    let r := normalise_loop
      ⟨wrap64 (from_now.tv_sec + 1), wrap64 (from_now.tv_nsec - NSEC_PER_SEC)⟩
    (r.1, r.2 + 1)
  else
    (from_now, 0)
termination_by from_now.tv_nsec.toNat
decreasing_by
  simp only [NSEC_PER_SEC, wrap64] at *
  omega

/-- Thread.c lines 137-138: the local `interval` of Thread_time_from_now. -/
def interval_of (ms : Int) : timespec :=
  { tv_sec := Int.tdiv ms 1000
    tv_nsec := Int.tmod ms 1000 * 1000000 }

/-- Thread.c lines 150-154: `from_now` just before the loop.  `now` is what
clock_gettime stored.  Line 154 reads `from_now.tv_nsec += interval.tv_sec;`. -/
def from_now_before_loop (now : timespec) (ms : Int) : timespec :=
  let interval := interval_of ms
  let from_now := now
  let from_now := { from_now with tv_sec := wrap64 (from_now.tv_sec + interval.tv_sec) }
  let from_now := { from_now with tv_nsec := wrap64 (from_now.tv_nsec + interval.tv_sec) }
  from_now

/-- Thread.c lines 133-163: Thread_time_from_now. -/
def Thread_time_from_now (now : timespec) (ms : Int) : timespec :=
  (normalise_loop (from_now_before_loop now ms)).1

/-- Number of iterations the loop of Thread_time_from_now performs. -/
def Thread_time_from_now_iterations (now : timespec) (ms : Int) : Nat :=
  (normalise_loop (from_now_before_loop now ms)).2

/-! ## Event primitive -/

/-- Thread.h line 56: evt_type_struct.  The native members `cond` and `mutex`
carry no data of the model; `val` is the flag of the event. -/
structure evt_type_struct where
  val : Int
deriving DecidableEq

/-- The native calls the event functions make, in the order they are made. -/
inductive Call where
  | condattr_init
  | malloc
  | cond_init
  | mutex_init
  | mutex_lock
  | mutex_unlock
  | cond_broadcast
  | cond_timedwait (abstime : timespec)
  | mutex_destroy
  | cond_destroy
  | free
deriving DecidableEq

/-- What Thread_create_evt hands back: the handle (none for NULL), the code
stored through `rc`, and the native calls made. -/
structure create_result where
  evt : Option evt_type_struct
  rc : Int
  calls : List Call
deriving DecidableEq

/-- Thread.c lines 262-293 (POSIX branch): Thread_create_evt.  `malloc_ok`
tells whether malloc returned a non-NULL pointer; `cond_init_rc` and
`mutex_init_rc` are the codes pthread_cond_init and pthread_mutex_init return. -/
def Thread_create_evt (malloc_ok : Bool) (cond_init_rc mutex_init_rc : Int) :
    create_result :=
  let rc : Int := -1
  let calls := [Call.condattr_init, Call.malloc]
  if malloc_ok then
    let rc := cond_init_rc
    let calls := calls ++ [Call.cond_init]
    let rc := mutex_init_rc
    let calls := calls ++ [Call.mutex_init]
    { evt := some { val := 0 }, rc := rc, calls := calls }
  else
    { evt := none, rc := rc, calls := calls }

/-- What Thread_signal_evt leaves behind: its return code, the event and the
native calls made. -/
structure call_result where
  rc : Int
  evt : evt_type_struct
  calls : List Call
deriving DecidableEq

/-- Thread.c lines 299-316 (POSIX branch): Thread_signal_evt.  `broadcast_rc`
is the code pthread_cond_broadcast returns. -/
def Thread_signal_evt (broadcast_rc : Int) (evt : evt_type_struct) : call_result :=
  let rc : Int := 0
  let evt := { evt with val := 1 }
  let rc := broadcast_rc
  { rc := rc, evt := evt, calls := [Call.mutex_lock, Call.cond_broadcast, Call.mutex_unlock] }

/-- One return of pthread_cond_timedwait: the code it returns and the value
of the flag `val` when it returns with the mutex held again (other threads may
have written the flag while the mutex was released). -/
structure Wake where
  rc : Int
  val : Int
deriving DecidableEq

/-- Outcome of the loop at lines 337-339. -/
inductive loop_outcome where
  | exited (rc : Int) (val : Int) (calls : List Call)
  | blocked (calls : List Call)
deriving DecidableEq

/-- Thread.c lines 337-339:
`while (evt->val == 0 && (rc = pthread_cond_timedwait(&evt->cond, &evt->mutex, &evt_timeout)) == 0) ;`
`wakes` lists what the successive calls of pthread_cond_timedwait yield.  When
the list is used up and the loop calls pthread_cond_timedwait once more, the
thread stays blocked in that call: outcome `blocked`. -/
def wait_loop (abstime : timespec) : List Wake → Int → Int → List Call → loop_outcome
  | [], val, rc, calls =>
    if val = 0 then
      loop_outcome.blocked (calls ++ [Call.cond_timedwait abstime])
    else
      loop_outcome.exited rc val calls
  | w :: rest, val, rc, calls =>
    if val = 0 then
      if w.rc = 0 then
        wait_loop abstime rest w.val w.rc (calls ++ [Call.cond_timedwait abstime])
      else
        loop_outcome.exited w.rc w.val (calls ++ [Call.cond_timedwait abstime])
    else
      loop_outcome.exited rc val calls

/-- Outcome of a call of Thread_wait_evt. -/
inductive wait_outcome where
  | returned (rc : Int) (evt : evt_type_struct) (calls : List Call)
  | blocked (calls : List Call)
deriving DecidableEq

/-- Thread.c lines 322-347 (POSIX branch): Thread_wait_evt.  `now` is the clock
reading used by Thread_time_from_now, and `env` gives, for the deadline handed
to pthread_cond_timedwait, what its successive calls yield. -/
def Thread_wait_evt (now : timespec) (env : timespec → List Wake)
    (evt : evt_type_struct) (timeout_ms : Int) : wait_outcome :=
  let rc : Int := 0
  let evt_timeout := Thread_time_from_now now timeout_ms
  match wait_loop evt_timeout (env evt_timeout) evt.val rc [Call.mutex_lock] with
  | loop_outcome.exited rc val calls =>
    let val := if rc = 0 then 0 else val
    wait_outcome.returned rc { val := val } (calls ++ [Call.mutex_unlock])
  | loop_outcome.blocked calls => wait_outcome.blocked calls

/-- Number of pthread_cond_timedwait calls in a call log. -/
def timedwait_calls (calls : List Call) : Nat :=
  calls.countP (fun c => match c with
    | Call.cond_timedwait _ => true
    | _ => false)

/-- The call log of a wait outcome. -/
def wait_outcome.calls : wait_outcome → List Call
  | wait_outcome.returned _ _ calls => calls
  | wait_outcome.blocked calls => calls

/-- The environment of a condition variable that nobody signals, after POSIX:
pthread_cond_timedwait fails with EINVAL when the tv_nsec of its abstime is
below 0 or at least 10^9; otherwise, after `spurious` wakeups that return 0
with the flag still 0, it returns ETIMEDOUT. -/
def never_signalled (spurious : Nat) (abstime : timespec) : List Wake :=
  if abstime.valid then
    List.replicate spurious { rc := 0, val := 0 } ++ [{ rc := ETIMEDOUT, val := 0 }]
  else
    [{ rc := EINVAL, val := 0 }]

/-- Result of Thread_destroy_evt: the code returned and the native calls made. -/
structure destroy_result where
  rc : Int
  calls : List Call
deriving DecidableEq

/-- Thread.c lines 353-369 (POSIX branch): Thread_destroy_evt.
`mutex_destroy_rc` and `cond_destroy_rc` are the codes pthread_mutex_destroy
and pthread_cond_destroy return. -/
def Thread_destroy_evt (mutex_destroy_rc cond_destroy_rc : Int) : destroy_result :=
  let rc : Int := 0
  let rc := mutex_destroy_rc
  let rcc := cond_destroy_rc
  let rc := if rcc ≠ 0 then rcc else rc
  { rc := rc, calls := [Call.mutex_destroy, Call.cond_destroy, Call.free] }

/-- The result the specification words for destroy: the first nonzero code
met, the mutex being destroyed first. -/
def destroy_first_nonzero (mutex_destroy_rc cond_destroy_rc : Int) : Int :=
  if mutex_destroy_rc ≠ 0 then mutex_destroy_rc else cond_destroy_rc

/-! ## Several threads on one event

The atomic steps are the mutex-protected sections of Thread_signal_evt
(lines 308-312) and Thread_wait_evt (lines 336-343).  pthread_cond_timedwait
releases the mutex while the thread is blocked and takes it again before it
returns, so a call of Thread_wait_evt is a sequence of such sections, one per
return of pthread_cond_timedwait, the first starting at line 336. -/

/-- Where a thread that called Thread_wait_evt stands. -/
inductive Waiter where
  | entering
  | waking (rc : Int)
  | blocked
  | returned (rc : Int)
deriving DecidableEq

/-- The event and the threads in Thread_wait_evt, with the number of
Thread_signal_evt calls made so far. -/
structure System where
  val : Int
  waiters : List Waiter
  signals : Nat
deriving DecidableEq

/-- The atomic steps. -/
inductive Step where
  | signal
  | enter
  | wake (i : Nat) (rc : Int)
  | run (i : Nat)
deriving DecidableEq

/-- Outcome of one mutex-protected section of Thread_wait_evt. -/
inductive section_outcome where
  | block
  | leave (rc : Int) (val : Int)
deriving DecidableEq

/-- Thread.c line 337, first conjunct, then lines 340-342: the test
`evt->val == 0` with the local `rc`; when it fails the loop is left, and
`if (rc == 0) evt->val = 0;` runs; when it holds pthread_cond_timedwait is
called and the thread blocks. -/
def section_test (val rc : Int) : section_outcome :=
  if val = 0 then
    section_outcome.block
  else
    section_outcome.leave rc (if rc = 0 then 0 else val)

/-- Thread.c line 338, then lines 340-342: pthread_cond_timedwait has returned
`wrc`; `(rc = wrc) == 0` either continues the loop with the test of line 337
or leaves it with a nonzero `rc`. -/
def section_resume (val wrc : Int) : section_outcome :=
  if wrc = 0 then
    section_test val wrc
  else
    section_outcome.leave wrc (if wrc = 0 then 0 else val)

/-- The section a waiter runs when it next holds the mutex. -/
def waiter_section (val : Int) : Waiter → Option section_outcome
  | Waiter.entering => some (section_test val 0)
  | Waiter.waking wrc => some (section_resume val wrc)
  | Waiter.blocked => none
  | Waiter.returned _ => none

/-- The effect of pthread_cond_broadcast on one waiter: a thread blocked in
pthread_cond_timedwait is made to return 0. -/
def broadcast_one : Waiter → Waiter
  | Waiter.blocked => Waiter.waking 0
  | w => w

/-- One atomic step; none when the step is not enabled. -/
def System.step (s : System) : Step → Option System
  | Step.signal =>
    some { val := (Thread_signal_evt 0 { val := s.val }).evt.val
           waiters := s.waiters.map broadcast_one
           signals := s.signals + 1 }
  | Step.enter =>
    some { s with waiters := s.waiters ++ [Waiter.entering] }
  | Step.wake i rc =>
    match s.waiters[i]? with
    | some Waiter.blocked => some { s with waiters := s.waiters.set i (Waiter.waking rc) }
    | _ => none
  | Step.run i =>
    match s.waiters[i]? with
    | some w =>
      match waiter_section s.val w with
      | some section_outcome.block =>
        some { s with waiters := s.waiters.set i Waiter.blocked }
      | some (section_outcome.leave rc val) =>
        some { s with val := val, waiters := s.waiters.set i (Waiter.returned rc) }
      | none => none
    | none => none

/-- A sequence of atomic steps. -/
def System.run (s : System) : List Step → Option System
  | [] => some s
  | st :: rest =>
    match s.step st with
    | some s1 => System.run s1 rest
    | none => none

/-- Number of Thread_wait_evt calls that have returned success. -/
def System.successes (s : System) : Nat :=
  s.waiters.count (Waiter.returned 0)

/-- A waiter that has been made runnable and has not yet run its section. -/
def Waiter.pending : Waiter → Bool
  | Waiter.entering => true
  | Waiter.waking _ => true
  | _ => false

/-- No waiter is runnable: each is blocked or has returned. -/
def System.quiescent (s : System) : Bool :=
  s.waiters.all (fun w => !w.pending)

/-- Whether a step is a Thread_signal_evt call. -/
def Step.is_signal : Step → Bool
  | Step.signal => true
  | _ => false

/-- An unsignaled event with `n` threads blocked in Thread_wait_evt. -/
def System.blocked_init (n : Nat) : System :=
  { val := 0, waiters := List.replicate n Waiter.blocked, signals := 0 }

/-- The counting invariant: the successful returns, plus one when the flag is
set, do not exceed the signals. -/
def counting_invariant (s : System) : Prop :=
  s.successes + (if s.val = 0 then 0 else 1) ≤ s.signals

/-- One call of Thread_wait_evt followed section by section: `pending` is the
outcome of the section just run, `wakes` what the later calls of
pthread_cond_timedwait yield.  Gives the code returned and the flag left, or
none when the thread stays blocked. -/
def follow_sections : section_outcome → List Wake → Option (Int × Int)
  | section_outcome.leave rc val, _ => some (rc, val)
  | section_outcome.block, [] => none
  | section_outcome.block, w :: rest => follow_sections (section_resume w.val w.rc) rest

/-- The code returned and the flag left by a wait outcome, none when blocked. -/
def wait_outcome.result : wait_outcome → Option (Int × Int)
  | wait_outcome.returned rc evt _ => some (rc, evt.val)
  | wait_outcome.blocked _ => none

/-- A waiter that tests the flag with rc = 0 when it next runs: it has just
entered, or its timed wait has returned 0. -/
def Waiter.fresh : Waiter → Bool
  | Waiter.entering => true
  | Waiter.waking rc => decide (rc = 0)
  | _ => false

/-- The state right after the single Thread_signal_evt step on an unsignaled
event with `n` blocked threads. -/
def System.signaled_init (n : Nat) : System :=
  { val := 1, waiters := List.replicate n (Waiter.waking 0), signals := 1 }

/-- The invariant of the runs that follow one signal and hold no other: there
is a waiter, and either the flag is still set and every waiter is yet to test
it, or the flag is 0 again and exactly one wait has returned 0. -/
def one_signal_invariant (s : System) : Prop :=
  s.waiters ≠ [] ∧
    ((s.val ≠ 0 ∧ ∀ w ∈ s.waiters, w.fresh = true) ∨ (s.val = 0 ∧ s.successes = 1))

/-! ## Lemmas on the deadline utility -/

/-- Storing a value of the 64-bit range changes nothing. -/
theorem wrap64_of_in_range (x : Int) (h0 : -9223372036854775808 ≤ x)
    (h1 : x < 9223372036854775808) : wrap64 x = x := by
  unfold wrap64
  omega

theorem wrap64_in_int64 (x : Int) : in_int64 (wrap64 x) := by
  unfold wrap64 in_int64
  omega

theorem normalise_loop_lt (t : timespec) (h : t.tv_nsec < 1000000000) :
    normalise_loop t = (t, 0) := by
  rw [normalise_loop]
  simp only [NSEC_PER_SEC]
  rw [if_neg (by omega)]

theorem normalise_loop_ge (t : timespec) (h : 1000000000 ≤ t.tv_nsec) :
    normalise_loop t =
      ((normalise_loop ⟨wrap64 (t.tv_sec + 1), wrap64 (t.tv_nsec - 1000000000)⟩).1,
       (normalise_loop ⟨wrap64 (t.tv_sec + 1), wrap64 (t.tv_nsec - 1000000000)⟩).2 + 1) := by
  rw [normalise_loop]
  simp only [NSEC_PER_SEC]
  rw [if_pos (by omega)]

theorem normalise_loop_once (t : timespec) (h1 : 1000000000 ≤ t.tv_nsec)
    (h2 : t.tv_nsec < 2000000000) :
    normalise_loop t = (⟨wrap64 (t.tv_sec + 1), t.tv_nsec - 1000000000⟩, 1) := by
  rw [normalise_loop_ge t h1, wrap64_of_in_range (t.tv_nsec - 1000000000) (by omega) (by omega),
    normalise_loop_lt _ (by simp only; omega)]

/-- The loop keeps the instant denoted as long as its increments of tv_sec stay
in the 64-bit range. -/
theorem normalise_loop_to_ns (t : timespec) (hs0 : -9223372036854775808 ≤ t.tv_sec)
    (hn1 : t.tv_nsec < 9223372036854775808)
    (hs1 : t.tv_sec + t.tv_nsec / 1000000000 < 9223372036854775808) :
    (normalise_loop t).1.to_ns = t.to_ns := by
  obtain ⟨n, hn⟩ : ∃ n : Nat, t.tv_nsec.toNat = n := ⟨_, rfl⟩
  induction n using Nat.strong_induction_on generalizing t with
  | _ n ih =>
    by_cases h : t.tv_nsec < 1000000000
    · rw [normalise_loop_lt t h]
    · have h1 : 1000000000 ≤ t.tv_nsec := by omega
      rw [normalise_loop_ge t h1, wrap64_of_in_range (t.tv_sec + 1) (by omega) (by omega),
        wrap64_of_in_range (t.tv_nsec - 1000000000) (by omega) (by omega)]
      have := ih (t.tv_nsec - 1000000000).toNat (by omega)
        ⟨t.tv_sec + 1, t.tv_nsec - 1000000000⟩ (by simp only; omega) (by simp only; omega)
        (by simp only; omega) rfl
      simp only [timespec.to_ns] at this ⊢
      omega

/-- The loop leaves tv_nsec below 10^9, and non-negative when it started
non-negative and in the 64-bit range. -/
theorem normalise_loop_valid (t : timespec) (hn1 : t.tv_nsec < 9223372036854775808) :
    (normalise_loop t).1.tv_nsec < 1000000000 ∧
      (0 ≤ t.tv_nsec → 0 ≤ (normalise_loop t).1.tv_nsec) := by
  obtain ⟨n, hn⟩ : ∃ n : Nat, t.tv_nsec.toNat = n := ⟨_, rfl⟩
  induction n using Nat.strong_induction_on generalizing t with
  | _ n ih =>
    by_cases h : t.tv_nsec < 1000000000
    · rw [normalise_loop_lt t h]
      exact ⟨h, fun h0 => h0⟩
    · have h1 : 1000000000 ≤ t.tv_nsec := by omega
      rw [normalise_loop_ge t h1,
        wrap64_of_in_range (t.tv_nsec - 1000000000) (by omega) (by omega)]
      have := ih (t.tv_nsec - 1000000000).toNat (by omega)
        ⟨wrap64 (t.tv_sec + 1), t.tv_nsec - 1000000000⟩ (by simp only; omega) rfl
      simp only at this ⊢
      exact ⟨this.1, fun _ => this.2 (by omega)⟩

theorem from_now_before_loop_eq (now : timespec) (ms : Int) :
    from_now_before_loop now ms =
      ⟨wrap64 (now.tv_sec + Int.tdiv ms 1000), wrap64 (now.tv_nsec + Int.tdiv ms 1000)⟩ := rfl

theorem tdiv_tmod_1000 (ms : Int) : Int.tmod ms 1000 + 1000 * Int.tdiv ms 1000 = ms :=
  Int.tmod_add_tdiv ms 1000

/-- A 32-bit timeout that is not negative has between 0 and 2147483 whole
seconds. -/
theorem tdiv_1000_bounds (ms : Int) (hms : 0 ≤ ms) (h32 : ms < 2147483648) :
    0 ≤ Int.tdiv ms 1000 ∧ Int.tdiv ms 1000 < 2147484 := by
  have e := tdiv_tmod_1000 ms
  have hq : 0 ≤ Int.tdiv ms 1000 := Int.tdiv_nonneg hms (by decide)
  have hr : 0 ≤ Int.tmod ms 1000 := Int.tmod_nonneg _ hms
  exact ⟨hq, by omega⟩

/-- Within the 64-bit range the additions of lines 153-154 do not wrap. -/
theorem from_now_before_loop_in_range (now : timespec) (ms : Int)
    (hms : 0 ≤ ms) (h32 : ms < 2147483648)
    (hs0 : -9223372036854775808 ≤ now.tv_sec)
    (hs1 : now.tv_sec + 2147484 ≤ 9223372036854775808)
    (hn0 : -9223372036854775808 ≤ now.tv_nsec)
    (hn1 : now.tv_nsec + 2147484 ≤ 9223372036854775808) :
    from_now_before_loop now ms =
      ⟨now.tv_sec + Int.tdiv ms 1000, now.tv_nsec + Int.tdiv ms 1000⟩ := by
  obtain ⟨hq0, hq1⟩ := tdiv_1000_bounds ms hms h32
  rw [from_now_before_loop_eq, wrap64_of_in_range _ (by omega) (by omega),
    wrap64_of_in_range _ (by omega) (by omega)]

/-- The instant the deadline denotes, for a 32-bit ms >= 0 and a clock reading
whose fields are far enough below the 64-bit maximum for nothing to wrap. -/
theorem Thread_time_from_now_to_ns (now : timespec) (ms : Int)
    (hms : 0 ≤ ms) (h32 : ms < 2147483648)
    (hs0 : -9223372036854775808 ≤ now.tv_sec)
    (hs1 : now.tv_sec + 17179869184 ≤ 9223372036854775808)
    (hn0 : -9223372036854775808 ≤ now.tv_nsec)
    (hn1 : now.tv_nsec + 2147484 ≤ 9223372036854775808) :
    (Thread_time_from_now now ms).to_ns =
      now.to_ns + Int.tdiv ms 1000 * 1000000000 + Int.tdiv ms 1000 := by
  obtain ⟨hq0, hq1⟩ := tdiv_1000_bounds ms hms h32
  unfold Thread_time_from_now
  rw [from_now_before_loop_in_range now ms hms h32 hs0 (by omega) hn0 hn1,
    normalise_loop_to_ns _ (by simp only; omega) (by simp only; omega) (by simp only; omega)]
  simp only [timespec.to_ns]
  omega

/-- At the top of the 64-bit range line 153 wraps: from the clock reading
(2^63 - 1 s, 0 ns) and ms = 1000 the deadline is (-2^63 s, 1 ns). -/
theorem Thread_time_from_now_wraps_at_limit :
    Thread_time_from_now ⟨9223372036854775807, 0⟩ 1000 = ⟨-9223372036854775808, 1⟩ := by
  unfold Thread_time_from_now
  rw [from_now_before_loop_eq, normalise_loop_lt _ (by decide)]
  decide

theorem tdiv_sub_tmod_1000 (ms : Int) (h : 0 ≤ ms) :
    Int.tdiv (ms - Int.tmod ms 1000) 1000 = Int.tdiv ms 1000 := by
  have e := tdiv_tmod_1000 ms
  have hq : 0 ≤ Int.tdiv ms 1000 := Int.tdiv_nonneg h (by decide)
  have : ms - Int.tmod ms 1000 = Int.tdiv ms 1000 * 1000 := by omega
  rw [this, Int.mul_tdiv_cancel _ (by decide)]

/-! ## The claims on the deadline utility -/

/-- C1: at the clock reading (1700000000 s, 250000000 ns) and ms = 50 the
deadline Thread_time_from_now returns is the clock reading itself, 0 ns after
now, and not 50,000,000 ns after now. -/
theorem C1_deadline_50ms_is_now :
    Thread_time_from_now ⟨1700000000, 250000000⟩ 50 = ⟨1700000000, 250000000⟩ ∧
    (Thread_time_from_now ⟨1700000000, 250000000⟩ 50).to_ns ≠
      (⟨1700000000, 250000000⟩ : timespec).to_ns + 50 * 1000000 := by
  have h : Thread_time_from_now ⟨1700000000, 250000000⟩ 50 = ⟨1700000000, 250000000⟩ := by
    unfold Thread_time_from_now
    rw [from_now_before_loop_in_range _ _ (by decide) (by decide) (by decide) (by decide)
      (by decide) (by decide), normalise_loop_lt _ (by decide)]
    decide
  rw [h]
  exact ⟨rfl, by decide⟩

/-- C9, as stated, fails: at ms = 1000000001 the whole-seconds part of the
timeout is 1000000, not zero, and the deadline is exactly ms milliseconds
after now, so the measured duration does not differ from the requested one. -/
theorem C9_counterexample :
    Int.tdiv 1000000001 1000 ≠ 0 ∧
    (Thread_time_from_now ⟨0, 0⟩ 1000000001).to_ns =
      (⟨0, 0⟩ : timespec).to_ns + 1000000001 * 1000000 := by
  refine ⟨by decide, ?_⟩
  rw [Thread_time_from_now_to_ns _ _ (by decide) (by decide) (by decide) (by decide)
    (by decide) (by decide)]
  decide

/-- C9, amended: for every 32-bit ms >= 0 and every clock reading whose fields
are 64-bit values, tv_sec at least 2^34 and tv_nsec at least 2147484 below the
64-bit maximum (so that no addition wraps), before the loop
Thread_time_from_now has added ms / 1000 to both tv_sec and tv_nsec; the
deadline denotes now + (ms / 1000) s + (ms / 1000) ns; the sub-second part of
ms has no effect (ms and ms - ms % 1000 give the same deadline); and the
duration differs from ms milliseconds exactly when ms / 1000 is not
(ms % 1000) * 10^6, which is the case for every ms from 1000 up to 10^9 - 1. -/
theorem C9_whole_seconds_added_to_nanoseconds (now : timespec) (ms : Int)
    (hms : 0 ≤ ms) (h32 : ms < 2147483648)
    (hs0 : -9223372036854775808 ≤ now.tv_sec)
    (hs1 : now.tv_sec + 17179869184 ≤ 9223372036854775808)
    (hn0 : -9223372036854775808 ≤ now.tv_nsec)
    (hn1 : now.tv_nsec + 2147484 ≤ 9223372036854775808) :
    from_now_before_loop now ms =
      ⟨now.tv_sec + Int.tdiv ms 1000, now.tv_nsec + Int.tdiv ms 1000⟩ ∧
    (Thread_time_from_now now ms).to_ns =
      now.to_ns + Int.tdiv ms 1000 * 1000000000 + Int.tdiv ms 1000 ∧
    Thread_time_from_now now ms = Thread_time_from_now now (ms - Int.tmod ms 1000) ∧
    ((Thread_time_from_now now ms).to_ns ≠ now.to_ns + ms * 1000000 ↔
      Int.tdiv ms 1000 ≠ Int.tmod ms 1000 * 1000000) ∧
    (1000 ≤ ms → ms < 1000000000 →
      (Thread_time_from_now now ms).to_ns ≠ now.to_ns + ms * 1000000) := by
  have e := tdiv_tmod_1000 ms
  have hq : 0 ≤ Int.tdiv ms 1000 := Int.tdiv_nonneg hms (by decide)
  have hr : 0 ≤ Int.tmod ms 1000 := Int.tmod_nonneg _ hms
  have hto := Thread_time_from_now_to_ns now ms hms h32 hs0 hs1 hn0 hn1
  refine ⟨from_now_before_loop_in_range now ms hms h32 hs0 (by omega) hn0 hn1, hto, ?_, ?_, ?_⟩
  · unfold Thread_time_from_now
    rw [from_now_before_loop_eq, from_now_before_loop_eq, tdiv_sub_tmod_1000 ms hms]
  · rw [hto]
    constructor
    · intro h1 h2
      apply h1
      omega
    · intro h1 h2
      apply h1
      omega
  · intro h1 h2
    rw [hto]
    omega

/-- C9, amended, at now = (10 s, 999999999 ns) and ms = 2500. -/
theorem C9_whole_seconds_added_to_nanoseconds_witness :
    ((0 : Int) ≤ 2500 ∧ (2500 : Int) < 2147483648 ∧
      -9223372036854775808 ≤ (⟨10, 999999999⟩ : timespec).tv_sec ∧
      (⟨10, 999999999⟩ : timespec).tv_sec + 17179869184 ≤ 9223372036854775808 ∧
      -9223372036854775808 ≤ (⟨10, 999999999⟩ : timespec).tv_nsec ∧
      (⟨10, 999999999⟩ : timespec).tv_nsec + 2147484 ≤ 9223372036854775808) ∧
    (Thread_time_from_now ⟨10, 999999999⟩ 2500).to_ns =
      (⟨10, 999999999⟩ : timespec).to_ns + Int.tdiv 2500 1000 * 1000000000
        + Int.tdiv 2500 1000 ∧
    Thread_time_from_now ⟨10, 999999999⟩ 2500 =
      Thread_time_from_now ⟨10, 999999999⟩ (2500 - Int.tmod 2500 1000) ∧
    (Thread_time_from_now ⟨10, 999999999⟩ 2500).to_ns ≠
      (⟨10, 999999999⟩ : timespec).to_ns + 2500 * 1000000 :=
  ⟨⟨by decide, by decide, by decide, by decide, by decide, by decide⟩,
   (C9_whole_seconds_added_to_nanoseconds ⟨10, 999999999⟩ 2500 (by decide) (by decide)
     (by decide) (by decide) (by decide) (by decide)).2.1,
   (C9_whole_seconds_added_to_nanoseconds ⟨10, 999999999⟩ 2500 (by decide) (by decide)
     (by decide) (by decide) (by decide) (by decide)).2.2.1,
   (C9_whole_seconds_added_to_nanoseconds ⟨10, 999999999⟩ 2500 (by decide) (by decide)
     (by decide) (by decide) (by decide) (by decide)).2.2.2.2 (by decide) (by decide)⟩

/-- C10: for every 32-bit ms >= 0 and every clock reading with
0 <= tv_nsec < 10^9 whose tv_sec is a 64-bit value at least 2147484 below the
64-bit maximum (so that no addition wraps), the loop of Thread_time_from_now
runs its body at most once, and the timespec returned has 0 <= tv_nsec < 10^9,
denotes the same instant as the value computed before the loop, and is not
earlier than now. -/
theorem C10_normalisation_loop (now : timespec) (ms : Int)
    (hms : 0 ≤ ms) (h32 : ms < 2147483648)
    (h0 : 0 ≤ now.tv_nsec) (h1 : now.tv_nsec < 1000000000)
    (hs0 : -9223372036854775808 ≤ now.tv_sec)
    (hs1 : now.tv_sec + 2147484 < 9223372036854775808) :
    Thread_time_from_now_iterations now ms ≤ 1 ∧
    (Thread_time_from_now now ms).valid ∧
    (Thread_time_from_now now ms).to_ns = (from_now_before_loop now ms).to_ns ∧
    now.to_ns ≤ (Thread_time_from_now now ms).to_ns := by
  obtain ⟨hq, hq2⟩ := tdiv_1000_bounds ms hms h32
  have hpre := from_now_before_loop_in_range now ms hms h32 hs0 (by omega) (by omega) (by omega)
  have hto : (Thread_time_from_now now ms).to_ns = (from_now_before_loop now ms).to_ns := by
    unfold Thread_time_from_now
    rw [hpre, normalise_loop_to_ns _ (by simp only; omega) (by simp only; omega)
      (by simp only; omega)]
  refine ⟨?_, ?_, hto, ?_⟩
  · unfold Thread_time_from_now_iterations
    rw [hpre]
    by_cases h : now.tv_nsec + Int.tdiv ms 1000 < 1000000000
    · rw [normalise_loop_lt _ h]
      exact Nat.zero_le 1
    · rw [normalise_loop_once _ (by simp only; omega) (by simp only; omega)]
  · have := normalise_loop_valid (from_now_before_loop now ms) (by rw [hpre]; simp only; omega)
    rw [hpre] at this
    unfold Thread_time_from_now timespec.valid
    rw [hpre]
    exact ⟨this.2 (by simp only; omega), this.1⟩
  · rw [hto, hpre]
    simp only [timespec.to_ns]
    omega

/-- C10 at now = (10 s, 999999999 ns) and ms = 2147483647, where the loop
body runs once. -/
theorem C10_normalisation_loop_witness :
    ((0 : Int) ≤ 2147483647 ∧ (2147483647 : Int) < 2147483648 ∧
      (0 : Int) ≤ (⟨10, 999999999⟩ : timespec).tv_nsec ∧
      (⟨10, 999999999⟩ : timespec).tv_nsec < 1000000000 ∧
      -9223372036854775808 ≤ (⟨10, 999999999⟩ : timespec).tv_sec ∧
      (⟨10, 999999999⟩ : timespec).tv_sec + 2147484 < 9223372036854775808) ∧
    Thread_time_from_now_iterations ⟨10, 999999999⟩ 2147483647 ≤ 1 ∧
    (Thread_time_from_now ⟨10, 999999999⟩ 2147483647).valid ∧
    (Thread_time_from_now ⟨10, 999999999⟩ 2147483647).to_ns =
      (from_now_before_loop ⟨10, 999999999⟩ 2147483647).to_ns ∧
    (⟨10, 999999999⟩ : timespec).to_ns ≤
      (Thread_time_from_now ⟨10, 999999999⟩ 2147483647).to_ns :=
  ⟨⟨by decide, by decide, by decide, by decide, by decide, by decide⟩,
   C10_normalisation_loop ⟨10, 999999999⟩ 2147483647
     (by decide) (by decide) (by decide) (by decide) (by decide) (by decide)⟩

/-! ## Lemmas on the wait loop -/

/-- With the flag nonzero the loop is left at once, whatever the environment. -/
theorem wait_loop_signaled (abstime : timespec) (wakes : List Wake) (val rc : Int)
    (calls : List Call) (h : val ≠ 0) :
    wait_loop abstime wakes val rc calls = loop_outcome.exited rc val calls := by
  cases wakes <;> simp [wait_loop, h]

/-- A loop entered with rc = 0 that is left with rc = 0 saw a nonzero flag. -/
theorem wait_loop_exit_zero (abstime : timespec) (wakes : List Wake) :
    ∀ (val rc : Int) (calls : List Call) (v : Int) (lc : List Call), rc = 0 →
      wait_loop abstime wakes val rc calls = loop_outcome.exited 0 v lc → v ≠ 0 := by
  induction wakes with
  | nil =>
    intro val rc calls v lc _ h
    by_cases hv : val = 0
    · simp [wait_loop, hv] at h
    · simp only [wait_loop, if_neg hv, loop_outcome.exited.injEq] at h
      omega
  | cons w rest ih =>
    intro val rc calls v lc hrc h
    by_cases hv : val = 0
    · by_cases hw : w.rc = 0
      · simp only [wait_loop, if_pos hv, if_pos hw] at h
        exact ih _ _ _ _ _ hw h
      · simp only [wait_loop, if_pos hv, if_neg hw, loop_outcome.exited.injEq] at h
        omega
    · simp only [wait_loop, if_neg hv, loop_outcome.exited.injEq] at h
      omega

/-- On a flag that is 0 and stays 0 the loop is never left with rc = 0. -/
theorem wait_loop_unsignaled (abstime : timespec) (wakes : List Wake) :
    ∀ (val rc : Int) (calls : List Call) (v : Int) (lc : List Call), val = 0 →
      (∀ w ∈ wakes, w.val = 0) →
      wait_loop abstime wakes val rc calls ≠ loop_outcome.exited 0 v lc := by
  induction wakes with
  | nil =>
    intro val rc calls v lc hv _
    simp [wait_loop, hv]
  | cons w rest ih =>
    intro val rc calls v lc hv hall
    by_cases hw : w.rc = 0
    · simp only [wait_loop, if_pos hv, if_pos hw]
      exact ih _ _ _ _ _ (hall w (List.mem_cons_self _ _))
        (fun x hx => hall x (List.mem_cons_of_mem _ hx))
    · simp only [wait_loop, if_pos hv, if_neg hw]
      intro h
      simp only [loop_outcome.exited.injEq] at h
      omega

/-- After k wakeups that return 0 with the flag still 0, the loop has called
pthread_cond_timedwait k more times and goes on as from the start. -/
theorem wait_loop_spurious (abstime : timespec) (k : Nat) (rest : List Wake) :
    ∀ (rc : Int) (calls : List Call), rc = 0 →
      wait_loop abstime (List.replicate k { rc := 0, val := 0 } ++ rest) 0 rc calls =
        wait_loop abstime rest 0 0
          (calls ++ List.replicate k (Call.cond_timedwait abstime)) := by
  induction k with
  | zero =>
    intro rc calls hrc
    simp [hrc]
  | succ k ih =>
    intro rc calls _
    have h := ih 0 (calls ++ [Call.cond_timedwait abstime]) rfl
    simp only [List.replicate_succ, List.cons_append, wait_loop, if_true]
    refine Eq.trans h ?_
    rw [List.append_assoc]
    rfl

theorem Thread_wait_evt_signaled (now : timespec) (env : timespec → List Wake)
    (evt : evt_type_struct) (timeout_ms : Int) (h : evt.val ≠ 0) :
    Thread_wait_evt now env evt timeout_ms =
      wait_outcome.returned 0 { val := 0 } [Call.mutex_lock, Call.mutex_unlock] := by
  simp [Thread_wait_evt, wait_loop_signaled _ _ _ _ _ h]

theorem Thread_wait_evt_unsignaled (now : timespec) (env : timespec → List Wake)
    (evt : evt_type_struct) (timeout_ms : Int) (h : evt.val = 0)
    (henv : ∀ d, ∀ w ∈ env d, w.val = 0) (e : evt_type_struct) (calls : List Call) :
    Thread_wait_evt now env evt timeout_ms ≠ wait_outcome.returned 0 e calls := by
  unfold Thread_wait_evt
  simp only
  split
  · rename_i rc val lc heq
    intro hret
    simp only [wait_outcome.returned.injEq] at hret
    rw [hret.1] at heq
    exact wait_loop_unsignaled _ _ _ _ _ _ _ h (henv _) heq
  · intro hret
    cases hret

/-- The sections the step relation is made of, run one after the other, give
what the loop of Thread_wait_evt gives. -/
theorem wait_loop_follow_sections (abstime : timespec) (wakes : List Wake) :
    ∀ (val : Int) (calls : List Call),
      (match wait_loop abstime wakes val 0 calls with
        | loop_outcome.exited rc v _ => some (rc, if rc = 0 then 0 else v)
        | loop_outcome.blocked _ => none) =
      follow_sections (section_test val 0) wakes := by
  induction wakes with
  | nil =>
    intro val calls
    by_cases hv : val = 0 <;> simp [wait_loop, section_test, follow_sections, hv]
  | cons w rest ih =>
    intro val calls
    by_cases hv : val = 0
    · by_cases hw : w.rc = 0
      · have := ih w.val (calls ++ [Call.cond_timedwait abstime])
        simp only [wait_loop, section_test, follow_sections, section_resume, hv, hw,
          if_true] at this ⊢
        exact this
      · simp [wait_loop, section_test, follow_sections, section_resume, hv, hw]
    · simp [wait_loop, section_test, follow_sections, hv]

/-- Thread_wait_evt agrees with its section-by-section reading. -/
theorem Thread_wait_evt_follow_sections (now : timespec) (env : timespec → List Wake)
    (evt : evt_type_struct) (timeout_ms : Int) :
    (Thread_wait_evt now env evt timeout_ms).result =
      follow_sections (section_test evt.val 0) (env (Thread_time_from_now now timeout_ms)) := by
  rw [← wait_loop_follow_sections (Thread_time_from_now now timeout_ms) _ evt.val
    [Call.mutex_lock]]
  unfold Thread_wait_evt
  simp only
  split <;> simp_all [wait_outcome.result]

/-- With no whole second in the timeout the deadline is the clock reading. -/
theorem Thread_time_from_now_zero_seconds (now : timespec) (ms : Int)
    (hnow : now.valid) (hsec : in_int64 now.tv_sec) (hq : Int.tdiv ms 1000 = 0) :
    Thread_time_from_now now ms = now := by
  unfold Thread_time_from_now
  rw [from_now_before_loop_eq, hq, Int.add_zero, Int.add_zero,
    wrap64_of_in_range _ hsec.1 hsec.2,
    wrap64_of_in_range _ (by have := hnow.1; omega) (by have := hnow.2; omega),
    normalise_loop_lt _ hnow.2]

/-- A timeout below one second leaves the deadline at the clock reading. -/
theorem Thread_time_from_now_sub_second (now : timespec) (ms : Int)
    (hnow : now.valid) (hsec : in_int64 now.tv_sec) (h0 : 0 ≤ ms) (h1 : ms < 1000) :
    Thread_time_from_now now ms = now :=
  Thread_time_from_now_zero_seconds now ms hnow hsec (Int.tdiv_eq_zero_of_lt h0 h1)

/-! ## The claims on the event primitive -/

/-- C2: for every event whose flag is nonzero when Thread_wait_evt takes the
mutex, every clock reading, every environment and every timeout_ms,
Thread_wait_evt returns 0, leaves val = 0 and its native calls are the lock and
the unlock only, with no call of pthread_cond_timedwait; and Thread_signal_evt
followed by Thread_wait_evt returns 0 and leaves val = 0. -/
theorem C2_wait_on_signaled_event (now : timespec) (env : timespec → List Wake)
    (evt : evt_type_struct) (timeout_ms : Int) (h : evt.val ≠ 0) :
    Thread_wait_evt now env evt timeout_ms =
      wait_outcome.returned 0 { val := 0 } [Call.mutex_lock, Call.mutex_unlock] ∧
    timedwait_calls (Thread_wait_evt now env evt timeout_ms).calls = 0 ∧
    (∀ (broadcast_rc : Int) (e : evt_type_struct),
      Thread_wait_evt now env (Thread_signal_evt broadcast_rc e).evt timeout_ms =
        wait_outcome.returned 0 { val := 0 } [Call.mutex_lock, Call.mutex_unlock]) := by
  refine ⟨Thread_wait_evt_signaled now env evt timeout_ms h, ?_, ?_⟩
  · rw [Thread_wait_evt_signaled now env evt timeout_ms h]
    decide
  · intro broadcast_rc e
    exact Thread_wait_evt_signaled now env _ timeout_ms (by simp [Thread_signal_evt])

/-- C2 on an event with val = 1, timeout_ms = -5000 and an environment whose
timed wait would only ever time out. -/
theorem C2_wait_on_signaled_event_witness :
    ({ val := 1 } : evt_type_struct).val ≠ 0 ∧
    Thread_wait_evt ⟨1700000000, 3⟩ (never_signalled 0) { val := 1 } (-5000) =
      wait_outcome.returned 0 { val := 0 } [Call.mutex_lock, Call.mutex_unlock] :=
  ⟨by decide,
   (C2_wait_on_signaled_event ⟨1700000000, 3⟩ (never_signalled 0) { val := 1 } (-5000)
     (by decide)).1⟩

/-- C3: for every event, timeout, clock reading and environment,
Thread_wait_evt returns 0 only if its loop was left with rc = 0 on a nonzero
flag; a wakeup that returns 0 with the flag still 0 makes the loop call
pthread_cond_timedwait again, so k such wakeups and nothing more leave the
thread blocked after k + 1 calls; and on an event whose flag is 0 and stays 0
Thread_wait_evt never returns 0. -/
theorem C3_success_only_on_observed_signal (now : timespec) (env : timespec → List Wake)
    (evt : evt_type_struct) (timeout_ms : Int) :
    (∀ (e : evt_type_struct) (calls : List Call),
      Thread_wait_evt now env evt timeout_ms = wait_outcome.returned 0 e calls →
      ∃ (v : Int) (lc : List Call),
        wait_loop (Thread_time_from_now now timeout_ms)
          (env (Thread_time_from_now now timeout_ms)) evt.val 0 [Call.mutex_lock] =
          loop_outcome.exited 0 v lc ∧ v ≠ 0) ∧
    (∀ (abstime : timespec) (rest : List Wake) (calls : List Call),
      wait_loop abstime ({ rc := 0, val := 0 } :: rest) 0 0 calls =
        wait_loop abstime rest 0 0 (calls ++ [Call.cond_timedwait abstime])) ∧
    (∀ (abstime : timespec) (k : Nat) (calls : List Call),
      wait_loop abstime (List.replicate k { rc := 0, val := 0 }) 0 0 calls =
        loop_outcome.blocked
          (calls ++ List.replicate (k + 1) (Call.cond_timedwait abstime))) ∧
    (evt.val = 0 → (∀ d, ∀ w ∈ env d, w.val = 0) →
      ∀ (e : evt_type_struct) (calls : List Call),
        Thread_wait_evt now env evt timeout_ms ≠ wait_outcome.returned 0 e calls) := by
  refine ⟨?_, ?_, ?_, ?_⟩
  · intro e calls hret
    unfold Thread_wait_evt at hret
    simp only at hret
    split at hret
    · rename_i rc val lc heq
      simp only [wait_outcome.returned.injEq] at hret
      rw [hret.1] at heq
      exact ⟨val, lc, heq, wait_loop_exit_zero _ _ _ _ _ _ _ rfl heq⟩
    · cases hret
  · intro abstime rest calls
    simp [wait_loop]
  · intro abstime k calls
    have := wait_loop_spurious abstime k [] 0 calls rfl
    rw [List.append_nil] at this
    rw [this]
    simp only [wait_loop, if_true, List.append_assoc]
    rw [List.replicate_succ']
  · intro h henv e calls
    exact Thread_wait_evt_unsignaled now env evt timeout_ms h henv e calls

/-- C3 on an unsignaled event with timeout_ms = 50 whose timed wait wakes
three times for nothing and then times out: the call returns ETIMEDOUT after
four calls of pthread_cond_timedwait, and does not return 0. -/
theorem C3_success_only_on_observed_signal_witness :
    ({ val := 0 } : evt_type_struct).val = 0 ∧
    Thread_wait_evt ⟨1700000000, 3⟩ (never_signalled 3) { val := 0 } 50 ≠
      wait_outcome.returned 0 { val := 0 } [Call.mutex_lock, Call.mutex_unlock] :=
  have henv : ∀ d, ∀ w ∈ never_signalled 3 d, w.val = 0 := by
    intro d w hw
    unfold never_signalled at hw
    split at hw
    · simp at hw
      rcases hw with h | h <;> simp [h]
    · simp at hw
      simp [hw]
  ⟨rfl,
   (C3_success_only_on_observed_signal ⟨1700000000, 3⟩ (never_signalled 3) { val := 0 } 50).2.2.2
     rfl henv _ _⟩

/-- For a timeout in (-1000, 0] the deadline is the clock reading itself, and
on an event nobody signals the wait returns ETIMEDOUT once the timed wait does. -/
theorem Thread_wait_evt_poll (now : timespec) (ms : Int) (spurious : Nat)
    (hnow : now.valid) (hsec : in_int64 now.tv_sec) (h1 : -1000 < ms) (h2 : ms ≤ 0) :
    Thread_time_from_now now ms = now ∧
    Thread_wait_evt now (never_signalled spurious) { val := 0 } ms =
      wait_outcome.returned ETIMEDOUT { val := 0 }
        ([Call.mutex_lock] ++ List.replicate (spurious + 1) (Call.cond_timedwait now)
          ++ [Call.mutex_unlock]) := by
  have hq : Int.tdiv ms 1000 = 0 := by
    have h := Int.tdiv_eq_zero_of_lt (show (0 : Int) ≤ -ms by omega) (show -ms < 1000 by omega)
    rw [Int.neg_tdiv] at h
    omega
  have hd : Thread_time_from_now now ms = now :=
    Thread_time_from_now_zero_seconds now ms hnow hsec hq
  refine ⟨hd, ?_⟩
  unfold Thread_wait_evt
  simp only [hd, never_signalled, if_pos hnow]
  rw [wait_loop_spurious now spurious _ 0 _ rfl]
  simp [wait_loop, ETIMEDOUT, List.replicate_succ']

/-- C4: at the clock reading (1700000000 s, 3 ns) and timeout_ms = -5000 the
deadline Thread_time_from_now builds is (1699999995 s, -2 ns), which is not a
valid timespec, and Thread_wait_evt on an unsignaled event that nobody signals
returns EINVAL, not ETIMEDOUT. -/
theorem C4_negative_timeout_invalid_deadline :
    Thread_time_from_now ⟨1700000000, 3⟩ (-5000) = ⟨1699999995, -2⟩ ∧
    ¬ (Thread_time_from_now ⟨1700000000, 3⟩ (-5000)).valid ∧
    Thread_wait_evt ⟨1700000000, 3⟩ (never_signalled 0) { val := 0 } (-5000) =
      wait_outcome.returned EINVAL { val := 0 }
        [Call.mutex_lock, Call.cond_timedwait ⟨1699999995, -2⟩, Call.mutex_unlock] ∧
    EINVAL ≠ ETIMEDOUT := by
  have h : Thread_time_from_now ⟨1700000000, 3⟩ (-5000) = ⟨1699999995, -2⟩ := by
    unfold Thread_time_from_now
    rw [from_now_before_loop_eq, normalise_loop_lt _ (by decide)]
    decide
  refine ⟨h, ?_, ?_, by decide⟩
  · rw [h]
    decide
  · unfold Thread_wait_evt
    simp only [h]
    decide

/-- C5, as stated, fails: when the mutex destruction returns EBUSY (16) and
the condition-variable destruction returns EINVAL (22), Thread_destroy_evt
returns 22, the second code, where the first nonzero code is 16. -/
theorem C5_counterexample :
    (Thread_destroy_evt 16 22).rc = 22 ∧
    (Thread_destroy_evt 16 22).rc ≠ destroy_first_nonzero 16 22 := by
  decide

/-- C5, amended: for every pair of codes (m, c) of the mutex destruction and
the condition-variable destruction, Thread_destroy_evt makes both destructions
and the free, in that order, and returns c if c is nonzero, otherwise m: it
returns 0 exactly when both are 0, and returns c when both are nonzero. -/
theorem C5_destroy_returns_last_nonzero (m c : Int) :
    (Thread_destroy_evt m c).calls = [Call.mutex_destroy, Call.cond_destroy, Call.free] ∧
    (Thread_destroy_evt m c).rc = (if c ≠ 0 then c else m) ∧
    ((Thread_destroy_evt m c).rc = 0 ↔ m = 0 ∧ c = 0) ∧
    (m ≠ 0 → c ≠ 0 → (Thread_destroy_evt m c).rc = c) := by
  refine ⟨rfl, rfl, ?_, ?_⟩
  · simp only [Thread_destroy_evt]
    by_cases hc : c = 0
    · simp [hc]
    · simp [hc]
  · intro _ hc
    simp [Thread_destroy_evt, hc]

/-- C5, amended, at the codes EBUSY (16) and EINVAL (22). -/
theorem C5_destroy_returns_last_nonzero_witness :
    ((16 : Int) ≠ 0 ∧ (22 : Int) ≠ 0) ∧ (Thread_destroy_evt 16 22).rc = 22 :=
  ⟨by decide, (C5_destroy_returns_last_nonzero 16 22).2.2.2 (by decide) (by decide)⟩

/-- The code Thread_create_evt stores is 0 exactly when the allocation
succeeded and pthread_mutex_init returned 0. -/
theorem Thread_create_evt_rc (malloc_ok : Bool) (cond_init_rc mutex_init_rc : Int) :
    (Thread_create_evt malloc_ok cond_init_rc mutex_init_rc).rc = 0 ↔
      malloc_ok = true ∧ mutex_init_rc = 0 := by
  cases malloc_ok <;> simp [Thread_create_evt]

/-- C6: when the allocation succeeds, pthread_cond_init fails with ENOMEM (12)
and pthread_mutex_init returns 0, Thread_create_evt stores the success code 0
and returns a handle, although one native initialisation failed. -/
theorem C6_create_hides_cond_init_failure :
    (Thread_create_evt true 12 0).rc = 0 ∧
    (Thread_create_evt true 12 0).evt = some { val := 0 } ∧
    (Thread_create_evt true 12 0).calls =
      [Call.condattr_init, Call.malloc, Call.cond_init, Call.mutex_init] := by
  decide

/-- C7: for every event state, two consecutive Thread_signal_evt calls leave
the state one call leaves, with val = 1; the first Thread_wait_evt after them
returns 0 without blocking and leaves val = 0; and a second Thread_wait_evt on
the state the first one left, with no further signal (the flag stays 0 at every
wakeup), does not return 0. -/
theorem C7_signal_idempotent (evt : evt_type_struct) (rc1 rc2 : Int) :
    (Thread_signal_evt rc2 (Thread_signal_evt rc1 evt).evt).evt =
      (Thread_signal_evt rc1 evt).evt ∧
    (Thread_signal_evt rc2 (Thread_signal_evt rc1 evt).evt).evt.val = 1 ∧
    (∀ (now : timespec) (env : timespec → List Wake) (timeout_ms : Int),
      Thread_wait_evt now env
          (Thread_signal_evt rc2 (Thread_signal_evt rc1 evt).evt).evt timeout_ms =
        wait_outcome.returned 0 { val := 0 } [Call.mutex_lock, Call.mutex_unlock] ∧
      ∀ (now2 : timespec) (env2 : timespec → List Wake) (timeout2_ms : Int),
        (∀ d, ∀ w ∈ env2 d, w.val = 0) →
        ∀ (e : evt_type_struct) (calls : List Call),
          Thread_wait_evt now2 env2 { val := 0 } timeout2_ms ≠
            wait_outcome.returned 0 e calls) := by
  refine ⟨rfl, rfl, ?_⟩
  intro now env timeout_ms
  refine ⟨Thread_wait_evt_signaled now env _ timeout_ms (by simp [Thread_signal_evt]), ?_⟩
  intro now2 env2 timeout2_ms henv e calls
  exact Thread_wait_evt_unsignaled now2 env2 _ timeout2_ms rfl henv e calls

/-- C7 from an unsignaled event: after two signals the first wait returns 0,
and the second, whose timed wait only times out, returns ETIMEDOUT. -/
theorem C7_signal_idempotent_witness :
    (Thread_signal_evt 0 (Thread_signal_evt 0 { val := 0 }).evt).evt = { val := 1 } ∧
    Thread_wait_evt ⟨1700000000, 3⟩ (never_signalled 0) { val := 0 } 0 ≠
      wait_outcome.returned 0 { val := 0 } [Call.mutex_lock, Call.mutex_unlock] :=
  have henv : ∀ d, ∀ w ∈ never_signalled 0 d, w.val = 0 := by
    intro d w hw
    unfold never_signalled at hw
    split at hw
    · simp at hw
      simp [hw]
    · simp at hw
      simp [hw]
  ⟨(C7_signal_idempotent { val := 0 } 0 0).1,
   ((C7_signal_idempotent { val := 0 } 0 0).2.2 ⟨1700000000, 3⟩ (never_signalled 0) 0).2
     ⟨1700000000, 3⟩ (never_signalled 0) 0 henv _ _⟩

/-! ## Lemmas on the step relation -/

theorem count_set_waiter (a : Waiter) :
    ∀ (l : List Waiter) (i : Nat) (old new : Waiter), l[i]? = some old →
      (l.set i new).count a + (if old = a then 1 else 0) =
        l.count a + (if new = a then 1 else 0)
  | [], i, old, new, h => by simp at h
  | x :: xs, 0, old, new, h => by
    simp only [List.getElem?_cons_zero, Option.some.injEq] at h
    subst h
    simp only [List.set_cons_zero, List.count_cons, beq_iff_eq]
    omega
  | x :: xs, i + 1, old, new, h => by
    simp only [List.getElem?_cons_succ] at h
    have := count_set_waiter a xs i old new h
    simp only [List.set_cons_succ, List.count_cons, beq_iff_eq]
    omega

theorem count_broadcast (l : List Waiter) :
    (l.map broadcast_one).count (Waiter.returned 0) = l.count (Waiter.returned 0) := by
  induction l with
  | nil => rfl
  | cons x xs ih =>
    cases x <;> simp [broadcast_one, List.count_cons, ih]

/-- What an enabled run step does: the waiter blocks again on a flag that is
0, consumes a nonzero flag and returns 0, or returns the nonzero code of its
timed wait and leaves the flag alone. -/
theorem step_run_cases (s s1 : System) (i : Nat) (h : s.step (Step.run i) = some s1) :
    ∃ w, s.waiters[i]? = some w ∧
      ((s.val = 0 ∧ (w = Waiter.entering ∨ w = Waiter.waking 0) ∧
          s1 = { s with waiters := s.waiters.set i Waiter.blocked }) ∨
       (s.val ≠ 0 ∧ (w = Waiter.entering ∨ w = Waiter.waking 0) ∧
          s1 = { val := 0, waiters := s.waiters.set i (Waiter.returned 0),
                 signals := s.signals }) ∨
       (∃ rc, rc ≠ 0 ∧ w = Waiter.waking rc ∧
          s1 = { s with waiters := s.waiters.set i (Waiter.returned rc) })) := by
  unfold System.step at h
  simp only at h
  cases hw : s.waiters[i]? with
  | none => simp [hw] at h
  | some w =>
    refine ⟨w, rfl, ?_⟩
    simp only [hw] at h
    cases w with
    | entering =>
      by_cases hv : s.val = 0
      · simp [waiter_section, section_test, hv] at h
        exact Or.inl ⟨hv, Or.inl rfl, by rw [← h, hv]⟩
      · simp [waiter_section, section_test, hv] at h
        exact Or.inr (Or.inl ⟨hv, Or.inl rfl, by rw [← h]⟩)
    | waking wrc =>
      by_cases hr : wrc = 0
      · subst hr
        by_cases hv : s.val = 0
        · simp [waiter_section, section_resume, section_test, hv] at h
          exact Or.inl ⟨hv, Or.inr rfl, by rw [← h, hv]⟩
        · simp [waiter_section, section_resume, section_test, hv] at h
          exact Or.inr (Or.inl ⟨hv, Or.inr rfl, by rw [← h]⟩)
      · simp [waiter_section, section_resume, hr] at h
        exact Or.inr (Or.inr ⟨wrc, hr, rfl, by rw [← h]⟩)
    | blocked => simp [waiter_section] at h
    | returned rc => simp [waiter_section] at h

theorem step_wake_cases (s s1 : System) (i : Nat) (rc : Int)
    (h : s.step (Step.wake i rc) = some s1) :
    s.waiters[i]? = some Waiter.blocked ∧
      s1 = { s with waiters := s.waiters.set i (Waiter.waking rc) } := by
  unfold System.step at h
  simp only at h
  split at h
  · rename_i hw
    simp only [Option.some.injEq] at h
    exact ⟨hw, h.symm⟩
  · cases h

theorem counting_invariant_step (s s1 : System) (st : Step)
    (hI : counting_invariant s) (h : s.step st = some s1) : counting_invariant s1 := by
  unfold counting_invariant System.successes at *
  cases st with
  | signal =>
    simp only [System.step, Option.some.injEq] at h
    subst h
    simp only [count_broadcast, Thread_signal_evt]
    split at hI <;> simp <;> omega
  | enter =>
    simp only [System.step, Option.some.injEq] at h
    subst h
    simpa [List.count_append] using hI
  | wake i rc =>
    obtain ⟨hw, h1⟩ := step_wake_cases s s1 i rc h
    subst h1
    have := count_set_waiter (Waiter.returned 0) s.waiters i _ (Waiter.waking rc) hw
    simp at this
    simp only
    omega
  | run i =>
    obtain ⟨w, hw, hc⟩ := step_run_cases s s1 i h
    rcases hc with ⟨hv, hw2, h1⟩ | ⟨hv, hw2, h1⟩ | ⟨rc, hrc, hw2, h1⟩
    · subst h1
      have := count_set_waiter (Waiter.returned 0) s.waiters i w Waiter.blocked hw
      rcases hw2 with rfl | rfl <;> simp at this <;> simp only <;> omega
    · subst h1
      have := count_set_waiter (Waiter.returned 0) s.waiters i w (Waiter.returned 0) hw
      rw [if_neg hv] at hI
      rcases hw2 with rfl | rfl <;> simp at this <;> simp <;> omega
    · subst h1
      subst hw2
      have := count_set_waiter (Waiter.returned 0) s.waiters i _ (Waiter.returned rc) hw
      simp [hrc] at this
      simp only
      omega

theorem counting_invariant_run (steps : List Step) :
    ∀ (s s1 : System), counting_invariant s → s.run steps = some s1 →
      counting_invariant s1 := by
  induction steps with
  | nil =>
    intro s s1 hI h
    simp only [System.run, Option.some.injEq] at h
    exact h ▸ hI
  | cons st rest ih =>
    intro s s1 hI h
    simp only [System.run] at h
    split at h
    · rename_i s2 hs2
      exact ih s2 s1 (counting_invariant_step s s2 st hI hs2) h
    · cases h

theorem set_ne_nil (l : List Waiter) (i : Nat) (w : Waiter) (h : l ≠ []) :
    l.set i w ≠ [] := by
  intro hs
  have := congrArg List.length hs
  simp only [List.length_set, List.length_nil] at this
  exact h (List.length_eq_zero.mp this)

theorem count_zero_of_fresh (l : List Waiter) (h : ∀ w ∈ l, w.fresh = true) :
    l.count (Waiter.returned 0) = 0 := by
  rw [List.count_eq_zero]
  intro hmem
  have := h _ hmem
  simp [Waiter.fresh] at this

theorem one_signal_invariant_step (s s1 : System) (st : Step)
    (hJ : one_signal_invariant s) (hst : st.is_signal = false)
    (h : s.step st = some s1) : one_signal_invariant s1 := by
  obtain ⟨hne, hJ⟩ := hJ
  cases st with
  | signal => simp [Step.is_signal] at hst
  | enter =>
    simp only [System.step, Option.some.injEq] at h
    subst h
    refine ⟨by simp, ?_⟩
    rcases hJ with ⟨hv, hall⟩ | ⟨hv, hc⟩
    · refine Or.inl ⟨hv, ?_⟩
      intro w hw
      simp only [List.mem_append, List.mem_singleton] at hw
      rcases hw with hw | rfl
      · exact hall w hw
      · rfl
    · refine Or.inr ⟨hv, ?_⟩
      simpa [System.successes, List.count_append] using hc
  | wake i rc =>
    obtain ⟨hw, h1⟩ := step_wake_cases s s1 i rc h
    subst h1
    refine ⟨set_ne_nil _ _ _ hne, ?_⟩
    rcases hJ with ⟨hv, hall⟩ | ⟨hv, hc⟩
    · have := hall _ (List.getElem?_mem hw)
      simp [Waiter.fresh] at this
    · refine Or.inr ⟨hv, ?_⟩
      have := count_set_waiter (Waiter.returned 0) s.waiters i _ (Waiter.waking rc) hw
      simp at this
      simp only [System.successes] at hc ⊢
      omega
  | run i =>
    obtain ⟨w, hw, hc⟩ := step_run_cases s s1 i h
    rcases hc with ⟨hv, hw2, h1⟩ | ⟨hv, hw2, h1⟩ | ⟨rc, hrc, hw2, h1⟩
    · subst h1
      refine ⟨set_ne_nil _ _ _ hne, ?_⟩
      rcases hJ with ⟨hv2, _⟩ | ⟨_, hc⟩
      · exact absurd hv hv2
      · refine Or.inr ⟨hv, ?_⟩
        have := count_set_waiter (Waiter.returned 0) s.waiters i w Waiter.blocked hw
        simp only [System.successes] at hc ⊢
        rcases hw2 with rfl | rfl <;> simp at this <;> omega
    · subst h1
      refine ⟨set_ne_nil _ _ _ hne, ?_⟩
      rcases hJ with ⟨_, hall⟩ | ⟨hv2, _⟩
      · refine Or.inr ⟨rfl, ?_⟩
        have h0 := count_zero_of_fresh _ hall
        have := count_set_waiter (Waiter.returned 0) s.waiters i w (Waiter.returned 0) hw
        simp only [System.successes]
        rcases hw2 with rfl | rfl <;> simp at this <;> omega
      · exact absurd hv2 hv
    · subst h1
      subst hw2
      refine ⟨set_ne_nil _ _ _ hne, ?_⟩
      rcases hJ with ⟨_, hall⟩ | ⟨hv, hc⟩
      · have := hall _ (List.getElem?_mem hw)
        simp [Waiter.fresh, hrc] at this
      · refine Or.inr ⟨hv, ?_⟩
        have := count_set_waiter (Waiter.returned 0) s.waiters i _ (Waiter.returned rc) hw
        simp [hrc] at this
        simp only [System.successes] at hc ⊢
        omega

theorem one_signal_invariant_run (steps : List Step) :
    ∀ (s s1 : System), one_signal_invariant s → (∀ st ∈ steps, st.is_signal = false) →
      s.run steps = some s1 → one_signal_invariant s1 := by
  induction steps with
  | nil =>
    intro s s1 hJ _ h
    simp only [System.run, Option.some.injEq] at h
    exact h ▸ hJ
  | cons st rest ih =>
    intro s s1 hJ hns h
    simp only [System.run] at h
    split at h
    · rename_i s2 hs2
      exact ih s2 s1
        (one_signal_invariant_step s s2 st hJ (hns st (List.mem_cons_self _ _)) hs2)
        (fun x hx => hns x (List.mem_cons_of_mem _ hx)) h
    · cases h

theorem one_signal_invariant_init (n : Nat) (hn : 1 ≤ n) :
    one_signal_invariant (System.signaled_init n) := by
  refine ⟨?_, Or.inl ⟨by simp [System.signaled_init], ?_⟩⟩
  · intro h
    have := congrArg List.length h
    simp [System.signaled_init] at this
    omega
  · intro w hw
    simp only [System.signaled_init] at hw
    rw [List.eq_of_mem_replicate hw]
    rfl

/-- Once the flag is 0, the woken waiters at positions k, k+1, ... run in turn
and each blocks again. -/
theorem run_reblock (m : Nat) :
    ∀ (pre : List Waiter) (g : Nat),
      System.run { val := 0, waiters := pre ++ List.replicate m (Waiter.waking 0), signals := g }
          ((List.range' pre.length m).map Step.run) =
        some { val := 0, waiters := pre ++ List.replicate m Waiter.blocked, signals := g } := by
  induction m with
  | zero =>
    intro pre g
    simp [System.run]
  | succ m ih =>
    intro pre g
    have hget : (pre ++ Waiter.waking 0 :: List.replicate m (Waiter.waking 0))[pre.length]? =
        some (Waiter.waking 0) := by
      rw [List.getElem?_append_right (Nat.le_refl _)]
      simp
    have hset : (pre ++ Waiter.waking 0 :: List.replicate m (Waiter.waking 0)).set pre.length
        Waiter.blocked = (pre ++ [Waiter.blocked]) ++ List.replicate m (Waiter.waking 0) := by
      rw [List.set_append_right _ _ (Nat.le_refl _)]
      simp
    have := ih (pre ++ [Waiter.blocked]) g
    simp only [List.length_append, List.length_singleton] at this
    simp only [List.range'_succ, List.map_cons, List.replicate_succ, System.run, System.step,
      hget, waiter_section, section_resume, section_test, if_true, hset, this]
    simp

/-! ## The claim on several waiters -/

/-- C8: from an unsignaled event with n >= 1 threads blocked in
Thread_wait_evt, the Thread_signal_evt step sets the flag and wakes every
blocked waiter; in every state reached from there by steps that hold no other
signal at most one wait has returned 0, and once no waiter is runnable exactly
one has returned 0, the flag is 0 and every other waiter is blocked again or
has returned a nonzero code; the waiters can all run, in the order of their
positions, which leaves the first returned with 0 and the others blocked; and
in every state reached by any steps from an unsignaled event on which no signal
and no successful wait has happened, the waits that returned 0 are no more than
the Thread_signal_evt calls. -/
theorem C8_one_signal_one_success (n : Nat) (hn : 1 ≤ n) :
    (System.blocked_init n).step Step.signal = some (System.signaled_init n) ∧
    (∀ (steps : List Step) (s : System), (∀ st ∈ steps, st.is_signal = false) →
      (System.signaled_init n).run steps = some s →
      s.successes ≤ 1 ∧
      (s.quiescent = true →
        s.successes = 1 ∧ s.val = 0 ∧
        ∀ w ∈ s.waiters, w = Waiter.returned 0 ∨ w = Waiter.blocked ∨
          ∃ rc, rc ≠ 0 ∧ w = Waiter.returned rc)) ∧
    (System.signaled_init n).run ((List.range n).map Step.run) =
      some { val := 0
             waiters := Waiter.returned 0 :: List.replicate (n - 1) Waiter.blocked
             signals := 1 } ∧
    (∀ (s0 : System) (steps : List Step) (s : System),
      s0.val = 0 → s0.successes = 0 → s0.signals = 0 →
      s0.run steps = some s → s.successes ≤ s.signals) := by
  refine ⟨?_, ?_, ?_, ?_⟩
  · simp [System.step, System.blocked_init, System.signaled_init, Thread_signal_evt,
      broadcast_one]
  · intro steps s hns hrun
    obtain ⟨hne, hJ⟩ :=
      one_signal_invariant_run steps _ s (one_signal_invariant_init n hn) hns hrun
    constructor
    · rcases hJ with ⟨_, hall⟩ | ⟨_, hc⟩
      · have := count_zero_of_fresh _ hall
        simp only [System.successes]
        omega
      · omega
    · intro hq
      simp only [System.quiescent, List.all_eq_true] at hq
      rcases hJ with ⟨_, hall⟩ | ⟨hv, hc⟩
      · exfalso
        obtain ⟨w, hw⟩ := List.exists_mem_of_ne_nil _ hne
        have h1 := hall w hw
        have h2 := hq w hw
        cases w <;> simp [Waiter.fresh, Waiter.pending] at h1 h2
      · refine ⟨hc, hv, ?_⟩
        intro w hw
        have h2 := hq w hw
        cases w with
        | entering => simp [Waiter.pending] at h2
        | waking rc => simp [Waiter.pending] at h2
        | blocked => exact Or.inr (Or.inl rfl)
        | returned rc =>
          by_cases hrc : rc = 0
          · exact Or.inl (by rw [hrc])
          · exact Or.inr (Or.inr ⟨rc, hrc, rfl⟩)
  · obtain ⟨m, rfl⟩ : ∃ m, n = m + 1 := ⟨n - 1, by omega⟩
    have h := run_reblock m [Waiter.returned 0] 1
    simp only [List.length_singleton, List.singleton_append] at h
    simp only [List.range_eq_range', List.range'_succ, List.map_cons, System.run, System.step,
      System.signaled_init, List.replicate_succ, List.getElem?_cons_zero, waiter_section,
      section_resume, section_test, List.set_cons_zero, Nat.add_sub_cancel]
    simpa using h
  · intro s0 steps s hv hs hg hrun
    have hI : counting_invariant s0 := by
      unfold counting_invariant
      rw [hs, hg, if_pos hv]
    have := counting_invariant_run steps s0 s hI hrun
    unfold counting_invariant at this
    omega

/-- C8 with five blocked waiters: the signal wakes all five; when waiter 3 runs
first it returns 0, the four others block again, and waiter 0, whose timed wait
then times out, returns ETIMEDOUT (110): one success for one signal. -/
theorem C8_one_signal_one_success_witness :
    (1 ≤ 5 ∧
      (System.signaled_init 5).run [Step.run 3, Step.run 0, Step.run 1, Step.run 2,
          Step.run 4, Step.wake 0 110, Step.run 0] =
        some { val := 0
               waiters := [Waiter.returned 110, Waiter.blocked, Waiter.blocked,
                 Waiter.returned 0, Waiter.blocked]
               signals := 1 } ∧
      System.quiescent { val := 0
                         waiters := [Waiter.returned 110, Waiter.blocked, Waiter.blocked,
                           Waiter.returned 0, Waiter.blocked]
                         signals := 1 } = true) ∧
    (System.blocked_init 5).step Step.signal = some (System.signaled_init 5) ∧
    System.successes { val := 0
                       waiters := [Waiter.returned 110, Waiter.blocked, Waiter.blocked,
                         Waiter.returned 0, Waiter.blocked]
                       signals := 1 } = 1 ∧
    (System.signaled_init 5).run ((List.range 5).map Step.run) =
      some { val := 0
             waiters := Waiter.returned 0 :: List.replicate (5 - 1) Waiter.blocked
             signals := 1 } :=
  ⟨⟨by decide, by decide, by decide⟩,
   (C8_one_signal_one_success 5 (by decide)).1,
   (((C8_one_signal_one_success 5 (by decide)).2.1
       [Step.run 3, Step.run 0, Step.run 1, Step.run 2, Step.run 4, Step.wake 0 110, Step.run 0]
       { val := 0
         waiters := [Waiter.returned 110, Waiter.blocked, Waiter.blocked,
           Waiter.returned 0, Waiter.blocked]
         signals := 1 }
       (by decide) (by decide)).2 (by decide)).1,
   (C8_one_signal_one_success 5 (by decide)).2.2.1⟩

end PahoThread
